import Mathlib

/-!
# Shallow embedding of `crates/config/src/chain.rs`

The Rust source defines `Chain`, a two-variant chain identifier
(`Named(NamedChain) | Id(u64)`), together with its conversion surface:
numeric conversions (`From<u64>`, `From<U256>`, `From<Chain> for u64`),
string parsing (`FromStr`), display (`Display`), the untagged serde
encoding/decoding, and accessors (`id`, `named`, `is_legacy`,
`etherscan_urls`).

`NamedChain` is `ethers_core::types::Chain`, an external registry crate not
part of this repository, and `crate::U256` is a re-export whose definition is
likewise outside the sources at hand; both are modelled from the spec
(see the doc comments marked "Modelled from the spec"). Everything in the
`Chain` namespace is translated directly from `chain.rs`.

Machine integers are modelled as `Nat`; `u64` values carry explicit
`< 2 ^ 64` bounds where they matter.
-/

/-! ## ASCII character primitives -/

/-- ASCII decimal digit test, as in Rust `char::to_digit(10)` /
`u64::from_str`: code point between 48 (`0`) and 57 (`9`). -/
def isDigitChar (c : Char) : Bool :=
  48 ≤ c.toNat && c.toNat ≤ 57

/-- ASCII lower-casing of one character (`A`..`Z` shifted by 32, all other
characters unchanged). Chain names are ASCII, so this models Rust's
`str::to_lowercase` / case folding on the inputs that occur here. -/
def asciiLower (c : Char) : Char :=
  if 65 ≤ c.toNat && c.toNat ≤ 90 then Char.ofNat (c.toNat + 32) else c

/-- Lower-case an entire string character by character. -/
def lowerStr (s : String) : String :=
  ⟨s.data.map asciiLower⟩

/-- The ASCII digit character for a digit value `d < 10`. -/
def digitChar (d : Nat) : Char :=
  Char.ofNat (48 + d)

/-! ## Decimal numerals

`Display for u64` prints the base-10 numeral; `u64::from_str` reads one.
Digits are produced little-endian with a fuel argument (structural
recursion, so terms reduce by `decide`). -/

/-- Little-endian base-10 digits of `n` (empty for 0), with fuel. -/
def natDigitsLE : Nat → Nat → List Nat
  | 0, _ => []
  | fuel + 1, n => if n = 0 then [] else n % 10 :: natDigitsLE fuel (n / 10)

/-- Value of a little-endian digit list. -/
def valLE : List Nat → Nat
  | [] => 0
  | d :: ds => d + 10 * valLE ds

/-- The characters of the base-10 numeral of `n`, most significant first. -/
def decimalChars (n : Nat) : List Char :=
  if n = 0 then ['0'] else ((natDigitsLE n n).reverse.map digitChar)

/-- The base-10 numeral of `n`, as printed by Rust's `Display for u64`. -/
def natToDecimal (n : Nat) : String :=
  ⟨decimalChars n⟩

/-- Strip one optional leading `+` sign, as `u64::from_str` does. -/
def stripPlus : List Char → List Char
  | [] => []
  | c :: rest => if c = '+' then rest else c :: rest

/-- `u64::from_str` on the character list: optional leading `+`, then one or
more ASCII digits, value required to fit in 64 bits; `none` otherwise. -/
def parseU64Chars (l : List Char) : Option Nat :=
  if (stripPlus l).isEmpty then none
  else if (stripPlus l).all isDigitChar then
    if (stripPlus l).foldl (fun a c => a * 10 + (c.toNat - 48)) 0 < 2 ^ 64 then
      some ((stripPlus l).foldl (fun a c => a * 10 + (c.toNat - 48)) 0)
    else none
  else none

/-- `str::parse::<u64>` — Rust's standard unsigned decimal parse. -/
def rustParseU64 (s : String) : Option Nat :=
  parseU64Chars s.data

/-! ## The chain registry -/

/-- Modelled from the spec: the external chain registry
(`ethers_core::types::Chain`, re-exported as `NamedChain`) is a closed
enumeration of well-known chains, fixed at build time; this development
instantiates it with a small representative table. Each symbol maps 1:1 to
a `u64` id and carries a legacy-fee-model flag and optional explorer URLs. -/
inductive NamedChain : Type
  | Mainnet
  | Optimism
  | Dev
deriving DecidableEq, Repr

/-- The numeric id of a registry symbol (`NamedChain as u64`). -/
def NamedChain.toU64 : NamedChain → Nat
  | .Mainnet => 1
  | .Optimism => 10
  | .Dev => 1337

/-- The canonical (lowercase) display name of a registry symbol, as produced
by the registry's `Display` implementation. -/
def NamedChain.nameStr : NamedChain → String
  | .Mainnet => "mainnet"
  | .Optimism => "optimism"
  | .Dev => "dev"

/-- Modelled from the spec: `NamedChain::try_from(id: u64)` — the reverse
lookup from a numeric id to the registry symbol, `none` when the id is not
in the table. -/
def NamedChain.tryFromU64 (id : Nat) : Option NamedChain :=
  if id = 1 then some .Mainnet
  else if id = 10 then some .Optimism
  else if id = 1337 then some .Dev
  else none

/-- Modelled from the spec: `NamedChain::from_str` — registry lookup by
name; the lookup is case-insensitive (the input's case is folded before
comparison with the canonical names). -/
def NamedChain.fromStr (s : String) : Option NamedChain :=
  if lowerStr s = "mainnet" then some .Mainnet
  else if lowerStr s = "optimism" then some .Optimism
  else if lowerStr s = "dev" then some .Dev
  else none

/-- Modelled from the spec: the registry's per-symbol legacy-fee-model
flag (`NamedChain::is_legacy`). -/
def NamedChain.is_legacy : NamedChain → Bool
  | .Mainnet => false
  | .Optimism => true
  | .Dev => false

/-- Modelled from the spec: the registry's per-symbol explorer URL pair
(`NamedChain::etherscan_urls`), absent for chains without explorer
metadata. -/
def NamedChain.etherscan_urls : NamedChain → Option (String × String)
  | .Mainnet => some ("https://etherscan.io", "https://api.etherscan.io/api")
  | .Optimism => some ("https://optimistic.etherscan.io", "https://api-optimistic.etherscan.io/api")
  | .Dev => none

/-! ## The `Chain` type (translated from `chain.rs`) -/

/-- `enum Chain { Named(NamedChain), Id(u64) }` — either a named chain or
the actual id value. -/
inductive Chain : Type
  | Named (c : NamedChain)
  | Id (id : Nat)
deriving DecidableEq, Repr

/-- The error raised by `Chain::named` on an unrecognized id (the source
builds an eyre error reading "Unsupported chain: id"). -/
inductive ChainError : Type
  | UnsupportedChain (id : Nat)
deriving DecidableEq, Repr

namespace Chain

/-- `Chain::id` — the id of the chain (total numeric projection). -/
def id : Chain → Nat
  | .Named c => c.toU64
  | .Id i => i

/-- `Chain::named` — returns the wrapped named chain or tries converting
the id into one; errors on an unrecognized id. -/
def named : Chain → Except ChainError NamedChain
  | .Named c => .ok c
  | .Id i =>
    match NamedChain.tryFromU64 i with
    | some c => .ok c
    | none => .error (ChainError.UnsupportedChain i)

/-- `Chain::is_legacy` — `self.named().map_or(false, |c| c.is_legacy())`. -/
def is_legacy (self : Chain) : Bool :=
  match self.named with
  | .ok c => c.is_legacy
  | .error _ => false

/-- `Chain::etherscan_urls` —
`self.named().ok().and_then(|c| c.etherscan_urls())`. -/
def etherscan_urls (self : Chain) : Option (String × String) :=
  match self.named with
  | .ok c => c.etherscan_urls
  | .error _ => none

/-- `impl Display for Chain`: a named chain prints its registry name; an id
prints the registry name when `NamedChain::try_from` recognizes it, else the
decimal numeral. -/
def display : Chain → String
  | .Named c => c.nameStr
  | .Id i =>
    match NamedChain.tryFromU64 i with
    | some c => c.nameStr
    | none => natToDecimal i

/-- `impl From<u64> for Chain`:
`NamedChain::try_from(id).map(Chain::Named).unwrap_or_else(|_| Chain::Id(id))`. -/
def fromU64 (i : Nat) : Chain :=
  ((NamedChain.tryFromU64 i).map Chain.Named).getD (Chain.Id i)

/-- Modelled from the spec: the narrowing `U256::to::<u64>()` used by
`impl From<U256> for Chain` — `crate::U256` is a re-export whose crate is
not among the sources; the spec fixes truncation to the low 64 bits. -/
def u256ToU64 (v : Nat) : Nat :=
  v % 2 ^ 64

/-- `impl From<U256> for Chain`: `id.to::<u64>().into()`. -/
def fromU256 (v : Nat) : Chain :=
  fromU64 (u256ToU64 v)

/-- `impl From<Chain> for u64`. -/
def toU64 : Chain → Nat
  | .Named c => c.toU64
  | .Id i => i

/-- `impl FromStr for Chain`: try the registry name lookup, else parse a
`u64` and wrap it in `Chain::Id`; the error is the source's message text. -/
def fromStr (s : String) : Except String Chain :=
  match NamedChain.fromStr s with
  | some c => .ok (Chain.Named c)
  | none =>
    match rustParseU64 s with
    | some i => .ok (Chain.Id i)
    | none => .error ("Expected known chain or integer, found: " ++ s)

end Chain

/-! ## Untagged serialization (serde) -/

/-- The scalar shapes the untagged serde encoding produces and the
deserializer's helper `enum ChainId { Named(String), Id(u64) }` accepts. -/
inductive SValue : Type
  | str (s : String)
  | int (n : Nat)
deriving DecidableEq, Repr

namespace Chain

/-- `#[serde(untagged)]` serialization of `Chain`: a `Named` value encodes
via `from_str_lowercase::serialize` (its display name, lower-cased) as a
string; an `Id` value encodes as a plain unsigned integer. -/
def encode : Chain → SValue
  | .Named c => .str (lowerStr c.nameStr)
  | .Id i => .int i

/-- `impl Deserialize for Chain`: a string is lower-cased and parsed as a
registry name; an integer goes through
`NamedChain::try_from(id).map(Chain::Named).unwrap_or_else(|_| Chain::Id(id))`. -/
def decode : SValue → Except String Chain
  | .str s =>
    match NamedChain.fromStr (lowerStr s) with
    | some c => .ok (Chain.Named c)
    | none => .error "Matching variant not found"
  | .int i => .ok (((NamedChain.tryFromU64 i).map Chain.Named).getD (Chain.Id i))

/-- `impl Default for Chain`: `NamedChain::Mainnet.into()`. -/
def default : Chain :=
  Chain.Named NamedChain.Mainnet

end Chain

/-! ## Canonical form -/

/-- A `Chain` value is in canonical form when it is `Named`, or `Id i` with
`i` unrecognized by the registry. -/
def Chain.canonical : Chain → Prop
  | .Named _ => True
  | .Id i => NamedChain.tryFromU64 i = none

/-- A `Chain` value is well-formed when its payload fits in a `u64`. -/
def Chain.wf : Chain → Prop
  | .Named _ => True
  | .Id i => i < 2 ^ 64

instance {ε α : Type} [DecidableEq ε] [DecidableEq α] : DecidableEq (Except ε α) :=
  fun x y =>
    match x, y with
    | .ok a, .ok b => decidable_of_iff (a = b) (by simp)
    | .error e, .error f => decidable_of_iff (e = f) (by simp)
    | .ok _, .error _ => isFalse (by simp)
    | .error _, .ok _ => isFalse (by simp)

/-! ## Registry coherence lemmas -/

/-- The reverse lookup inverts the numeric projection of every symbol. -/
theorem NamedChain.tryFromU64_toU64 (c : NamedChain) :
    NamedChain.tryFromU64 c.toU64 = some c := by
  cases c <;> decide

/-- A successful reverse lookup returns a symbol with the looked-up id. -/
theorem NamedChain.toU64_of_tryFromU64 {i : Nat} {c : NamedChain}
    (h : NamedChain.tryFromU64 i = some c) : c.toU64 = i := by
  unfold NamedChain.tryFromU64 at h
  split at h
  · cases h; simp_all [NamedChain.toU64]
  · split at h
    · cases h; simp_all [NamedChain.toU64]
    · split at h
      · cases h; simp_all [NamedChain.toU64]
      · cases h

/-- Name lookup inverts the canonical name of every symbol. -/
theorem NamedChain.fromStr_nameStr (c : NamedChain) :
    NamedChain.fromStr c.nameStr = some c := by
  cases c <;> decide

/-- Canonical names are already lower-case. -/
theorem NamedChain.lowerStr_nameStr (c : NamedChain) :
    lowerStr c.nameStr = c.nameStr := by
  cases c <;> decide

/-! ## Character lemmas -/

/-- `Char.ofNat` of a valid code point has that code point. -/
theorem toNat_ofNat_of_valid {n : Nat} (h : n.isValidChar) :
    (Char.ofNat n).toNat = n := by
  unfold Char.ofNat
  rw [dif_pos h]
  rfl

/-- The digit character of `d < 10` has code point `48 + d`. -/
theorem digitChar_toNat {d : Nat} (h : d < 10) : (digitChar d).toNat = 48 + d := by
  interval_cases d <;> decide

/-- Digit characters pass the digit test. -/
theorem isDigitChar_digitChar {d : Nat} (h : d < 10) :
    isDigitChar (digitChar d) = true := by
  interval_cases d <;> decide

/-- Digit characters are not the sign character. -/
theorem digitChar_ne_plus {d : Nat} (h : d < 10) : digitChar d ≠ '+' := by
  interval_cases d <;> decide

/-- Lower-casing fixes digit characters. -/
theorem asciiLower_of_digit {c : Char} (h : isDigitChar c = true) :
    asciiLower c = c := by
  unfold isDigitChar at h
  simp only [Bool.and_eq_true, decide_eq_true_eq] at h
  unfold asciiLower
  rw [if_neg]
  simp only [Bool.and_eq_true, decide_eq_true_eq, not_and]
  omega

/-- Lower-casing is idempotent on characters. -/
theorem asciiLower_idem (c : Char) : asciiLower (asciiLower c) = asciiLower c := by
  by_cases h : (65 ≤ c.toNat && c.toNat ≤ 90) = true
  · have hb : c.toNat ≤ 90 := by
      simp only [Bool.and_eq_true, decide_eq_true_eq] at h
      exact h.2
    have hv : (c.toNat + 32).isValidChar := Or.inl (by omega)
    have h1 : asciiLower c = Char.ofNat (c.toNat + 32) := by
      unfold asciiLower; rw [if_pos h]
    rw [h1]
    unfold asciiLower
    rw [if_neg]
    simp only [toNat_ofNat_of_valid hv, Bool.and_eq_true, decide_eq_true_eq, not_and]
    simp only [Bool.and_eq_true, decide_eq_true_eq] at h
    omega
  · have h1 : asciiLower c = c := by unfold asciiLower; rw [if_neg h]
    rw [h1, h1]

/-- Case folding is idempotent on strings. -/
theorem lowerStr_idem (s : String) : lowerStr (lowerStr s) = lowerStr s := by
  unfold lowerStr
  simp only [List.map_map]
  exact congrArg String.mk (List.map_congr_left fun c _ => asciiLower_idem c)

/-- Case folding fixes strings of digit characters. -/
theorem lowerStr_of_digits {s : String} (h : ∀ c ∈ s.data, isDigitChar c = true) :
    lowerStr s = s := by
  have haux : ∀ (l : List Char), (∀ c ∈ l, isDigitChar c = true) →
      l.map asciiLower = l := by
    intro l hl
    induction l with
    | nil => rfl
    | cons c cs ih =>
      rw [List.map_cons, asciiLower_of_digit (hl c (List.mem_cons_self c cs)),
        ih fun e he => hl e (List.mem_cons_of_mem c he)]
  cases s with
  | mk data => exact congrArg String.mk (haux data h)

/-! ## Decimal numeral lemmas -/

/-- With enough fuel, the little-endian digits of `n` evaluate back to `n`. -/
theorem valLE_natDigitsLE : ∀ (fuel n : Nat), n ≤ fuel →
    valLE (natDigitsLE fuel n) = n
  | 0, n, h => by
    unfold natDigitsLE valLE; omega
  | fuel + 1, n, h => by
    unfold natDigitsLE
    by_cases hn : n = 0
    · simp [hn, valLE]
    · rw [if_neg hn]
      unfold valLE
      have hle : n / 10 ≤ fuel := by omega
      rw [valLE_natDigitsLE fuel (n / 10) hle]
      omega

/-- Every entry of the little-endian digit list is a digit. -/
theorem natDigitsLE_lt_ten : ∀ (fuel n : Nat), ∀ d ∈ natDigitsLE fuel n, d < 10
  | 0, _, d, hd => by simp [natDigitsLE] at hd
  | fuel + 1, n, d, hd => by
    unfold natDigitsLE at hd
    by_cases hn : n = 0
    · simp [hn] at hd
    · rw [if_neg hn] at hd
      rcases List.mem_cons.mp hd with h | h
      · omega
      · exact natDigitsLE_lt_ten fuel (n / 10) d h

/-- The digit list of a positive number is non-empty. -/
theorem natDigitsLE_ne_nil {fuel n : Nat} (hn : 0 < n) (hf : n ≤ fuel) :
    natDigitsLE fuel n ≠ [] := by
  cases fuel with
  | zero => omega
  | succ fuel =>
    unfold natDigitsLE
    rw [if_neg (by omega)]
    exact List.cons_ne_nil _ _

/-- Big-endian accumulation over the reversed digit list recovers the
little-endian value. -/
theorem foldl_reverse_valLE (l : List Nat) :
    l.reverse.foldl (fun a d => a * 10 + d) 0 = valLE l := by
  induction l with
  | nil => rfl
  | cons d ds ih =>
    rw [List.reverse_cons, List.foldl_append, ih]
    simp only [List.foldl_cons, List.foldl_nil, valLE]
    omega

/-- Folding the numeral characters with `code point - 48` equals folding the
underlying digits. -/
theorem foldl_map_digitChar (l : List Nat) (hl : ∀ d ∈ l, d < 10) :
    ∀ a : Nat, (l.map digitChar).foldl (fun a c => a * 10 + (c.toNat - 48)) a =
      l.foldl (fun a d => a * 10 + d) a := by
  induction l with
  | nil => intro a; rfl
  | cons d ds ih =>
    intro a
    simp only [List.map_cons, List.foldl_cons]
    rw [digitChar_toNat (hl d (List.mem_cons_self d ds))]
    have h48 : 48 + d - 48 = d := by omega
    rw [h48]
    exact ih (fun e he => hl e (List.mem_cons_of_mem d he)) _

/-- Every character of a decimal numeral is a digit character. -/
theorem decimalChars_all_digit (n : Nat) :
    ∀ c ∈ decimalChars n, isDigitChar c = true := by
  intro c hc
  unfold decimalChars at hc
  by_cases hn : n = 0
  · rw [hn] at hc; simp at hc; subst hc; decide
  · rw [if_neg hn] at hc
    rcases List.mem_map.mp hc with ⟨d, hd, rfl⟩
    exact isDigitChar_digitChar (natDigitsLE_lt_ten n n d (List.mem_reverse.mp hd))

/-- Decimal numerals are non-empty. -/
theorem decimalChars_ne_nil (n : Nat) : decimalChars n ≠ [] := by
  unfold decimalChars
  by_cases hn : n = 0
  · simp [hn]
  · rw [if_neg hn]
    intro h
    exact natDigitsLE_ne_nil (by omega) (le_refl n)
      (List.reverse_eq_nil_iff.mp (List.map_eq_nil_iff.mp h))

/-- Sign stripping leaves a decimal numeral unchanged: its head is a digit,
not `+`. -/
theorem stripPlus_decimalChars (n : Nat) :
    stripPlus (decimalChars n) = decimalChars n := by
  obtain ⟨c, rest, hcr⟩ : ∃ c rest, decimalChars n = c :: rest := by
    cases hd : decimalChars n with
    | nil => exact absurd hd (decimalChars_ne_nil n)
    | cons c rest => exact ⟨c, rest, rfl⟩
  have hdig : isDigitChar c = true :=
    decimalChars_all_digit n c (hcr ▸ List.mem_cons_self c rest)
  have hne : c ≠ '+' := by
    intro h
    rw [h] at hdig
    exact absurd hdig (by decide)
  rw [hcr]
  simp only [stripPlus, if_neg hne]

/-- Rust's `u64` parse reads a 64-bit number's numeral back. -/
theorem parseU64Chars_decimalChars {n : Nat} (h : n < 2 ^ 64) :
    parseU64Chars (decimalChars n) = some n := by
  unfold parseU64Chars
  rw [stripPlus_decimalChars]
  rw [if_neg (by
    intro hemp
    exact decimalChars_ne_nil n (List.isEmpty_iff.mp hemp))]
  rw [if_pos (List.all_eq_true.mpr (decimalChars_all_digit n))]
  by_cases hn : n = 0
  · subst hn; decide
  · have hfold : (decimalChars n).foldl (fun a c => a * 10 + (c.toNat - 48)) 0 = n := by
      have hd : decimalChars n = (natDigitsLE n n).reverse.map digitChar := by
        unfold decimalChars; rw [if_neg hn]
      have hds : ∀ d ∈ (natDigitsLE n n).reverse, d < 10 :=
        fun d hd' => natDigitsLE_lt_ten n n d (List.mem_reverse.mp hd')
      rw [hd, foldl_map_digitChar _ hds 0, foldl_reverse_valLE,
        valLE_natDigitsLE n n (le_refl n)]
    rw [hfold, if_pos h]

/-- Rust's `u64` parse inverts the decimal printer on 64-bit values. -/
theorem rustParseU64_natToDecimal {n : Nat} (h : n < 2 ^ 64) :
    rustParseU64 (natToDecimal n) = some n :=
  parseU64Chars_decimalChars h

/-- A decimal numeral is never a registry name: all its characters are
digits, while every name contains a letter. -/
theorem natToDecimal_ne_of_head {t : String} (c : Char) (hc : c ∈ t.data)
    (hcd : isDigitChar c = false) (n : Nat) : natToDecimal n ≠ t := by
  intro h
  have hmem : c ∈ (natToDecimal n).data := h ▸ hc
  have hdig : isDigitChar c = true := decimalChars_all_digit n c hmem
  rw [hdig] at hcd
  exact absurd hcd (by decide)

/-- Registry name lookup fails on every decimal numeral. -/
theorem namedChain_fromStr_natToDecimal (n : Nat) :
    NamedChain.fromStr (natToDecimal n) = none := by
  unfold NamedChain.fromStr
  rw [lowerStr_of_digits (s := natToDecimal n) (decimalChars_all_digit n)]
  rw [if_neg (natToDecimal_ne_of_head 'm' (by decide) (by decide) n),
    if_neg (natToDecimal_ne_of_head 'o' (by decide) (by decide) n),
    if_neg (natToDecimal_ne_of_head 'd' (by decide) (by decide) n)]

/-! ## Unfolding equations -/

/-- `decode` on an integer scalar, unfolded. -/
theorem Chain.decode_int (i : Nat) :
    Chain.decode (SValue.int i) =
      Except.ok (((NamedChain.tryFromU64 i).map Chain.Named).getD (Chain.Id i)) :=
  rfl

/-- `decode` on a string scalar, unfolded. -/
theorem Chain.decode_str (s : String) :
    Chain.decode (SValue.str s) =
      (match NamedChain.fromStr (lowerStr s) with
        | some c => Except.ok (Chain.Named c)
        | none => Except.error "Matching variant not found") :=
  rfl

/-- `named` on an id value, unfolded. -/
theorem Chain.named_id_eq (i : Nat) :
    (Chain.Id i).named =
      (match NamedChain.tryFromU64 i with
        | some c => Except.ok c
        | none => Except.error (ChainError.UnsupportedChain i)) :=
  rfl

/-- `display` on an id value, unfolded. -/
theorem Chain.display_id_eq (i : Nat) :
    (Chain.Id i).display =
      (match NamedChain.tryFromU64 i with
        | some c => c.nameStr
        | none => natToDecimal i) :=
  rfl

/-! ## Claim theorems -/

/-- Claim C1 (corrected, counterexample): the registry recognizes id 1, yet
`"1".parse::<Chain>()` returns `Ok(Chain::Id(1))`, not
`Ok(Chain::Named(Mainnet))` — `FromStr` does not route numeric literals
through `From<u64>`. -/
theorem parse_numeric_literal_cex :
    NamedChain.tryFromU64 1 = some NamedChain.Mainnet ∧
    Chain.fromStr "1" = Except.ok (Chain.Id 1) ∧
    Chain.fromStr "1" ≠ Except.ok (Chain.Named NamedChain.Mainnet) := by
  decide

/-- Claim C1 (corrected, amended): the canonical-form invariant holds on the
numeric conversion paths — `From<u64>`, `From<U256>`, and the deserializer's
integer branch all produce `Named` for a recognized id — but `FromStr` maps a
base-10 literal that is not a known symbol name to `Chain::Id(id)` directly,
even when the registry recognizes `id`. -/
theorem construction_paths_canonical_amended :
    (∀ i c, NamedChain.tryFromU64 i = some c →
      Chain.fromU64 i = Chain.Named c ∧ Chain.fromU64 i ≠ Chain.Id i) ∧
    (∀ v c, NamedChain.tryFromU64 (Chain.u256ToU64 v) = some c →
      Chain.fromU256 v = Chain.Named c) ∧
    (∀ i c, NamedChain.tryFromU64 i = some c →
      Chain.decode (SValue.int i) = Except.ok (Chain.Named c)) ∧
    (∀ s i, NamedChain.fromStr s = none → rustParseU64 s = some i →
      Chain.fromStr s = Except.ok (Chain.Id i)) := by
  refine ⟨?_, ?_, ?_, ?_⟩
  · intro i c h
    unfold Chain.fromU64
    rw [h]
    exact ⟨rfl, fun heq => Chain.noConfusion heq⟩
  · intro v c h
    unfold Chain.fromU256 Chain.fromU64
    rw [h]
    rfl
  · intro i c h
    rw [Chain.decode_int, h]
    rfl
  · intro s i hname hnum
    unfold Chain.fromStr
    rw [hname, hnum]

/-- Claim C1 (witness): at id 1 the amended statement is concrete —
`From<u64>` canonicalizes, `FromStr` does not. -/
theorem construction_paths_canonical_amended_witness :
    Chain.fromU64 1 = Chain.Named NamedChain.Mainnet ∧
    Chain.fromStr "1" = Except.ok (Chain.Id 1) :=
  ⟨(construction_paths_canonical_amended.1 1 NamedChain.Mainnet (by decide)).1,
    construction_paths_canonical_amended.2.2.2 "1" 1 (by decide) (by decide)⟩

/-- Claim C2 (confirmed): `From<u64>` returns `Named c` (never `Id i`)
whenever `NamedChain::try_from(i)` succeeds with `c`, and `Id i` whenever it
fails. -/
theorem fromU64_canonicalizes (i : Nat) :
    (∀ c, NamedChain.tryFromU64 i = some c →
      Chain.fromU64 i = Chain.Named c ∧ Chain.fromU64 i ≠ Chain.Id i) ∧
    (NamedChain.tryFromU64 i = none → Chain.fromU64 i = Chain.Id i) := by
  constructor
  · intro c h
    unfold Chain.fromU64
    rw [h]
    exact ⟨rfl, fun heq => Chain.noConfusion heq⟩
  · intro h
    unfold Chain.fromU64
    rw [h]
    rfl

/-- Claim C2 (witness): id 1 is recognized and normalizes to `Mainnet`;
id 999999999 is not recognized and stays numeric. -/
theorem fromU64_canonicalizes_witness :
    Chain.fromU64 1 = Chain.Named NamedChain.Mainnet ∧
    Chain.fromU64 999999999 = Chain.Id 999999999 :=
  ⟨((fromU64_canonicalizes 1).1 NamedChain.Mainnet (by decide)).1,
    (fromU64_canonicalizes 999999999).2 (by decide)⟩

/-- Claim C3 (corrected, counterexample): the non-canonical value
`Chain::Id(1)` encodes as the integer 1, which decodes to
`Chain::Named(Mainnet)` — a different value, so `decode(encode(x)) = x`
fails for non-canonical `x`. -/
theorem decode_encode_noncanonical_cex :
    Chain.encode (Chain.Id 1) = SValue.int 1 ∧
    Chain.decode (SValue.int 1) = Except.ok (Chain.Named NamedChain.Mainnet) ∧
    Chain.Named NamedChain.Mainnet ≠ Chain.Id 1 := by
  decide

/-- Claim C3 (corrected, amended): the untagged serialization round-trips on
every value in canonical form — `Named` values and `Id` values whose id the
registry does not recognize. -/
theorem decode_encode_canonical (x : Chain) (hc : x.canonical) :
    Chain.decode x.encode = Except.ok x := by
  cases x with
  | Named c =>
    show Chain.decode (SValue.str (lowerStr c.nameStr)) = Except.ok (Chain.Named c)
    rw [Chain.decode_str, NamedChain.lowerStr_nameStr, NamedChain.lowerStr_nameStr,
      NamedChain.fromStr_nameStr]
  | Id i =>
    have hnone : NamedChain.tryFromU64 i = none := hc
    show Chain.decode (SValue.int i) = Except.ok (Chain.Id i)
    rw [Chain.decode_int, hnone]
    rfl

/-- Claim C3 (witness): the round-trip at the canonical value
`Named Mainnet`. -/
theorem decode_encode_canonical_witness :
    Chain.decode (Chain.encode (Chain.Named NamedChain.Mainnet)) =
      Except.ok (Chain.Named NamedChain.Mainnet) :=
  decode_encode_canonical (Chain.Named NamedChain.Mainnet) True.intro

/-- Claim C4 (confirmed): registry name lookup folds the input's case before
comparing, so `parse` agrees on `"MAINNET"`, `"mainnet"` and `"Mainnet"`,
all yielding `Named Mainnet`. -/
theorem parse_case_insensitive :
    (∀ s : String, NamedChain.fromStr s = NamedChain.fromStr (lowerStr s)) ∧
    Chain.fromStr "MAINNET" = Except.ok (Chain.Named NamedChain.Mainnet) ∧
    Chain.fromStr "mainnet" = Except.ok (Chain.Named NamedChain.Mainnet) ∧
    Chain.fromStr "Mainnet" = Except.ok (Chain.Named NamedChain.Mainnet) := by
  refine ⟨fun s => ?_, by decide, by decide, by decide⟩
  unfold NamedChain.fromStr
  rw [lowerStr_idem]

/-- Claim C5 (confirmed, spec-modelled): `From<U256>` keeps the low 64 bits
of the wide value and delegates to `From<u64>`; on values that already fit
in 64 bits it agrees with `From<u64>` directly. It is total by type. -/
theorem fromU256_truncation (v : Nat) (_hv : v < 2 ^ 256) :
    Chain.fromU256 v = Chain.fromU64 (v % 2 ^ 64) ∧
    (v < 2 ^ 64 → Chain.fromU256 v = Chain.fromU64 v) := by
  constructor
  · rfl
  · intro h
    unfold Chain.fromU256 Chain.u256ToU64
    rw [Nat.mod_eq_of_lt h]

/-- Claim C5 (witness): the wide value `2 ^ 64 + 1` truncates to 1 and
normalizes to `Named Mainnet`. -/
theorem fromU256_truncation_witness :
    Chain.fromU256 (2 ^ 64 + 1) = Chain.fromU64 ((2 ^ 64 + 1) % 2 ^ 64) ∧
    Chain.fromU256 (2 ^ 64 + 1) = Chain.Named NamedChain.Mainnet :=
  ⟨(fromU256_truncation (2 ^ 64 + 1) (by decide)).1, by decide⟩

/-- Claim C6 (confirmed): for every well-formed canonical value, parsing the
displayed form returns the value: names parse back through the registry and
decimal numerals of unrecognized ids parse back as `Id`. -/
theorem parse_display_roundtrip (x : Chain) (hwf : x.wf) (hc : x.canonical) :
    Chain.fromStr x.display = Except.ok x := by
  cases x with
  | Named c =>
    show Chain.fromStr c.nameStr = Except.ok (Chain.Named c)
    unfold Chain.fromStr
    rw [NamedChain.fromStr_nameStr]
  | Id i =>
    have hnone : NamedChain.tryFromU64 i = none := hc
    have hlt : i < 2 ^ 64 := hwf
    have hdisp : Chain.display (Chain.Id i) = natToDecimal i := by
      rw [Chain.display_id_eq, hnone]
    rw [hdisp]
    unfold Chain.fromStr
    rw [namedChain_fromStr_natToDecimal, rustParseU64_natToDecimal hlt]

/-- Claim C6 (witness): the round-trip at `Named Mainnet`. -/
theorem parse_display_roundtrip_witness :
    Chain.fromStr (Chain.display (Chain.Named NamedChain.Mainnet)) =
      Except.ok (Chain.Named NamedChain.Mainnet) :=
  parse_display_roundtrip (Chain.Named NamedChain.Mainnet) True.intro True.intro

/-- Claim C7 (confirmed): `Chain::named` returns the wrapped symbol on
`Named`, the registry's symbol on a recognized `Id`, and fails with
`UnsupportedChain(id)` exactly when the value is `Id(id)` with `id`
unrecognized; `FromStr` errors come only from inputs that are neither a
known name nor a valid integer, never from `UnsupportedChain`. -/
theorem named_unsupported_spec (x : Chain) :
    (∀ c, x = Chain.Named c → x.named = Except.ok c) ∧
    (∀ i c, x = Chain.Id i → NamedChain.tryFromU64 i = some c →
      x.named = Except.ok c) ∧
    (∀ i, x.named = Except.error (ChainError.UnsupportedChain i) ↔
      (x = Chain.Id i ∧ NamedChain.tryFromU64 i = none)) ∧
    (∀ s e, Chain.fromStr s = Except.error e →
      NamedChain.fromStr s = none ∧ rustParseU64 s = none) := by
  refine ⟨?_, ?_, ?_, ?_⟩
  · rintro c rfl
    rfl
  · rintro i c rfl h
    rw [Chain.named_id_eq, h]
  · intro i
    constructor
    · intro h
      cases x with
      | Named c => exact absurd h (by simp [Chain.named])
      | Id j =>
        rw [Chain.named_id_eq] at h
        cases hj : NamedChain.tryFromU64 j with
        | some c =>
          rw [hj] at h
          simp at h
        | none =>
          rw [hj] at h
          simp only [Except.error.injEq, ChainError.UnsupportedChain.injEq] at h
          subst h
          exact ⟨rfl, hj⟩
    · rintro ⟨rfl, h⟩
      rw [Chain.named_id_eq, h]
  · intro s e h
    unfold Chain.fromStr at h
    cases hn : NamedChain.fromStr s with
    | some c =>
      rw [hn] at h
      simp at h
    | none =>
      rw [hn] at h
      cases hu : rustParseU64 s with
      | some i =>
        rw [hu] at h
        simp at h
      | none => exact ⟨rfl, rfl⟩

/-- Claim C7 (witness): `named` on the unrecognized id 999999999 fails with
`UnsupportedChain(999999999)`. -/
theorem named_unsupported_spec_witness :
    (Chain.Id 999999999).named =
      Except.error (ChainError.UnsupportedChain 999999999) :=
  ((named_unsupported_spec (Chain.Id 999999999)).2.2.1 999999999).mpr
    ⟨rfl, by decide⟩

/-- Claim C8 (confirmed): the unrecognized id 999999999 stays numeric under
`From<u64>`, displays as its decimal numeral, is not legacy, and has no
explorer URLs — all without error. -/
theorem unknown_id_tolerance :
    Chain.fromU64 999999999 = Chain.Id 999999999 ∧
    (Chain.Id 999999999).display = "999999999" ∧
    (Chain.Id 999999999).is_legacy = false ∧
    (Chain.Id 999999999).etherscan_urls = none := by
  decide

/-- Claim C9 (confirmed): projecting `From<u64>`'s result back to `u64`
(via `From<Chain> for u64` or `Chain::id`) recovers the original id, even
when normalization produced a `Named` value. -/
theorem u64_roundtrip (i : Nat) :
    Chain.toU64 (Chain.fromU64 i) = i ∧ (Chain.fromU64 i).id = i := by
  unfold Chain.fromU64
  cases h : NamedChain.tryFromU64 i with
  | some c =>
    have hc := NamedChain.toU64_of_tryFromU64 h
    exact ⟨hc, hc⟩
  | none => exact ⟨rfl, rfl⟩

/-- Claim C10 (confirmed): the deserializer's integer branch computes the
same function as `From<u64>` — decoding the integer `i` yields exactly
`Chain::from(i)`. -/
theorem decode_int_eq_fromU64 (i : Nat) :
    Chain.decode (SValue.int i) = Except.ok (Chain.fromU64 i) :=
  rfl
